import Mathlib

/-!
Verification of the AuthSnap session and authorization core.

Each definition below is a shallow embedding of a function from the
repository (file and symbol named in its doc comment).  JavaScript maps
are modelled as association lists with map semantics, JavaScript
truthiness of strings and numbers is modelled explicitly where the
source relies on it, time stamps are explicit parameters, and the
external collaborators (the WHATWG URL parser, the jose JWT library,
the HTTP layer) are modelled as explicit parameters or as small,
clearly documented models.
-/

set_option autoImplicit false

namespace AuthSnap

/-! ### Association lists with JavaScript Map semantics -/

/-- Lookup in an association list (models `Map.get` / property access). -/
def alLookup {α : Type} : List (String × α) → String → Option α
  | [], _ => none
  | p :: rest, k => if p.1 == k then some p.2 else alLookup rest k

/-- Insert-or-replace (models `Map.set`). -/
def alSet {α : Type} : List (String × α) → String → α → List (String × α)
  | [], k, v => [(k, v)]
  | p :: rest, k, v => if p.1 == k then (k, v) :: rest else p :: alSet rest k v

/-- Removal of a key (models `Map.delete`; a JavaScript map never holds a
key twice, so removing every pair with the key is observationally the same). -/
def alErase {α : Type} : List (String × α) → String → List (String × α)
  | [], _ => []
  | p :: rest, k => if p.1 == k then alErase rest k else p :: alErase rest k

theorem alLookup_alErase_self {α : Type} (l : List (String × α)) (k : String) :
    alLookup (alErase l k) k = none := by
  induction l with
  | nil => rfl
  | cons p rest ih =>
    by_cases h : p.1 = k
    · simpa [alErase, h] using ih
    · simpa [alErase, alLookup, h] using ih

theorem alLookup_alSet_self {α : Type} (l : List (String × α)) (k : String) (v : α) :
    alLookup (alSet l k v) k = some v := by
  induction l with
  | nil => simp [alSet, alLookup]
  | cons p rest ih =>
    by_cases h : p.1 = k
    · simp [alSet, alLookup, h]
    · simpa [alSet, alLookup, h] using ih

/-! ### JavaScript string and number truthiness -/

/-- Truthiness of an optional string: `undefined`, `null` and the empty
string are falsy. -/
def jsTruthy : Option String → Bool
  | none => false
  | some s => !s.isEmpty

/-- `a || d` for an optional numeric option value: `undefined` and `0`
are falsy and select the default. -/
def jsOrNat (o : Option Nat) (d : Nat) : Nat :=
  match o with
  | none => d
  | some 0 => d
  | some n => n

/-! ### Character-list string utilities (structural, so they evaluate) -/

/-- `s.startsWith(p)`. -/
def strStartsWith (s p : String) : Bool :=
  p.data.isPrefixOf s.data

/-- Split a character list at every occurrence of a separator
(models `String.prototype.split` with a one-character separator). -/
def splitChar (sep : Char) : List Char → List (List Char)
  | [] => [[]]
  | c :: rest =>
    let r := splitChar sep rest
    if c == sep then [] :: r
    else
      match r with
      | [] => [[c]]
      | g :: gs => (c :: g) :: gs

/-- `s.split(sep)`. -/
def jsSplit (s : String) (sep : Char) : List String :=
  (splitChar sep s.data).map String.mk

/-- `s.trim()`. -/
def jsTrim (s : String) : String :=
  String.mk (((s.data.dropWhile Char.isWhitespace).reverse.dropWhile Char.isWhitespace).reverse)

/-- Split a character list at the first occurrence of a separator,
returning `none` when the separator does not occur. -/
def splitFirst (sep : Char) : List Char → Option (List Char × List Char)
  | [] => none
  | c :: rest =>
    if c == sep then some ([], rest)
    else
      match splitFirst sep rest with
      | some (a, b) => some (c :: a, b)
      | none => none

/-! ### Decidable equality for `Except` results -/

instance {ε α : Type} [DecidableEq ε] [DecidableEq α] : DecidableEq (Except ε α) := fun x y =>
  match x, y with
  | .error a, .error b =>
    if h : a = b then .isTrue (by rw [h]) else .isFalse (by intro hc; injection hc; exact h (by assumption))
  | .error _, .ok _ => .isFalse (by intro hc; exact Except.noConfusion hc)
  | .ok _, .error _ => .isFalse (by intro hc; exact Except.noConfusion hc)
  | .ok a, .ok b =>
    if h : a = b then .isTrue (by rw [h]) else .isFalse (by intro hc; injection hc; exact h (by assumption))

/-! ### Token Store (src/src/session/token-store.js) -/

/-- OAuth credential record (`TokenSet` in the repository).  The stored
copy additionally carries the `storedAt` stamp that `TokenStore.set`
spreads onto the object. -/
structure TokenSet where
  accessToken : String
  refreshToken : Option String
  expiresAt : Option Int
  tokenType : String
  scope : Option String
  storedAt : Option Int := none
deriving DecidableEq, Repr

/-- Truthiness of `tokens.refreshToken`: `null` and `""` are falsy. -/
def jsFalsyRefreshToken (o : Option String) : Bool :=
  match o with
  | none => true
  | some s => s.isEmpty

namespace TokenStore

/-- `TokenStore.key(provider, userId)`. -/
def key (provider userId : String) : String :=
  provider ++ ":" ++ userId

/-- `TokenStore.set`: full replace, stamping `storedAt` with the current time. -/
def set (store : List (String × TokenSet)) (now : Int) (k : String) (tokens : TokenSet) :
    List (String × TokenSet) :=
  alSet store k { tokens with storedAt := some now }

/-- `TokenStore.get`: the stored set, or `null`. -/
def get (store : List (String × TokenSet)) (k : String) : Option TokenSet :=
  alLookup store k

/-- `TokenStore.delete` (the boolean result is unused by the refresher). -/
def del (store : List (String × TokenSet)) (k : String) : List (String × TokenSet) :=
  alErase store k

/-- `TokenStore.isExpired`: absent key is expired; `!tokens.expiresAt`
(so `null` and also the falsy number `0`) means never expiring; otherwise
compares `Date.now() > expiresAt`. -/
def isExpired (store : List (String × TokenSet)) (now : Int) (k : String) : Bool :=
  match get store k with
  | none => true
  | some tokens =>
    match tokens.expiresAt with
    | none => false
    | some e => if e == 0 then false else decide (now > e)

end TokenStore

/-- The claim's reading of `isExpired` (from the spec's words, for
comparison): true when the key is absent, true when `expiresAt` is
present and `now > expiresAt`, false when `expiresAt` is absent or in
the future. -/
def isExpiredClaimed (store : List (String × TokenSet)) (now : Int) (k : String) : Bool :=
  match TokenStore.get store k with
  | none => true
  | some tokens =>
    match tokens.expiresAt with
    | none => false
    | some e => decide (now > e)

/-- C9 (counterexample): a stored token set whose `expiresAt` is the
present-but-falsy number `0` is reported as not expired by the code even
though the current time is strictly greater than `expiresAt`, while the
claim as stated requires `isExpired` to be true there. -/
theorem isExpired_zero_expiresAt_counterexample :
    TokenStore.isExpired
        (TokenStore.set [] 1 "google:123"
          { accessToken := "a", refreshToken := none, expiresAt := some 0,
            tokenType := "Bearer", scope := none }) 5 "google:123" = false
    ∧ isExpiredClaimed
        (TokenStore.set [] 1 "google:123"
          { accessToken := "a", refreshToken := none, expiresAt := some 0,
            tokenType := "Bearer", scope := none }) 5 "google:123" = true
    ∧ (TokenStore.get
        (TokenStore.set [] 1 "google:123"
          { accessToken := "a", refreshToken := none, expiresAt := some 0,
            tokenType := "Bearer", scope := none }) "google:123").bind TokenSet.expiresAt
        = some 0
    ∧ (5 : Int) > 0 := by
  refine ⟨rfl, rfl, rfl, by decide⟩

/-- C9 (amended): `isExpired` is true exactly when the key is absent, or
when `expiresAt` is present, nonzero, and strictly less than the current
time; an absent or zero (falsy) `expiresAt` is treated as non-expiring. -/
theorem isExpired_characterization (store : List (String × TokenSet)) (now : Int) (k : String) :
    TokenStore.isExpired store now k = true ↔
      TokenStore.get store k = none ∨
      (∃ t e, TokenStore.get store k = some t ∧ t.expiresAt = some e ∧ e ≠ 0 ∧ now > e) := by
  unfold TokenStore.isExpired
  cases hget : TokenStore.get store k with
  | none => simp
  | some t =>
    cases hexp : t.expiresAt with
    | none => simp [hexp]
    | some e =>
      by_cases he : e = 0
      · simp [hexp, he]
      · simp only [hexp, beq_iff_eq, if_neg he, decide_eq_true_eq]
        constructor
        · intro h
          exact Or.inr ⟨t, e, rfl, hexp, he, h⟩
        · rintro (h | ⟨t', e', ht', he', hne, hlt⟩)
          · exact absurd h (by simp)
          · injection ht' with ht'
            rw [← ht'] at he'
            rw [hexp] at he'
            injection he' with he'
            rw [he']
            exact hlt

/-! ### Rate limiter (src/src/middleware/rate-limit.js) -/

/-- The limiter configuration produced by `createRateLimiter`: both
options go through `options.x || default`, so the falsy value `0`
selects the default. -/
structure RateLimiter where
  windowMs : Nat
  max : Nat
deriving DecidableEq, Repr

/-- `createRateLimiter(options)` option resolution
(`options.windowMs || 60_000`, `options.max || 10`). -/
def createRateLimiter (optWindowMs optMax : Option Nat) : RateLimiter :=
  { windowMs := jsOrNat optWindowMs 60000, max := jsOrNat optMax 10 }

/-- `check(key)`: prune timestamps outside the window, deny when the
pruned count reaches `max`, otherwise record the current timestamp and
allow.  The per-key map is threaded explicitly. -/
def RateLimiter.check (rl : RateLimiter) (store : List (String × List Nat))
    (k : String) (now : Nat) : Bool × List (String × List Nat) :=
  let timestamps := (alLookup store k).getD []
  let valid := timestamps.filter (fun t => now - t < rl.windowMs)
  if valid.length ≥ rl.max then (false, alSet store k valid)
  else (true, alSet store k (valid ++ [now]))

/-- Run `check` a number of times in sequence against the same key and
timestamp, collecting the results in order. -/
def RateLimiter.checkN (rl : RateLimiter) (store : List (String × List Nat))
    (k : String) (now : Nat) : Nat → List Bool × List (String × List Nat)
  | 0 => ([], store)
  | n + 1 =>
    let r := RateLimiter.check rl store k now
    let rest := RateLimiter.checkN rl r.2 k now n
    (r.1 :: rest.1, rest.2)

/-- C10: `createRateLimiter` replaces falsy option values with its
defaults — `max = 0` yields an effective limit of `10` and
`windowMs = 0` an effective window of `60000` ms — so a limiter built
with `max = 0` allows the first ten `check` calls on a fresh key within
one window (the eleventh is denied), and a deny-all limiter cannot be
configured by passing `max = 0`. -/
theorem createRateLimiter_falsy_defaults :
    (∀ w, (createRateLimiter w (some 0)).max = 10)
    ∧ (∀ m, (createRateLimiter (some 0) m).windowMs = 60000)
    ∧ (RateLimiter.checkN (createRateLimiter (some 0) (some 0)) [] "1.2.3.4" 1000 10).1
        = List.replicate 10 true
    ∧ (RateLimiter.checkN (createRateLimiter (some 0) (some 0)) [] "1.2.3.4" 1000 11).1
        = List.replicate 10 true ++ [false]
    ∧ (RateLimiter.check (createRateLimiter (some 0) (some 0)) [] "fresh-key" 1000).1 = true := by
  refine ⟨fun w => rfl, fun m => rfl, by decide, by decide, by decide⟩

/-! ### Redirect safety (src/src/core/route-handler.js, validateRedirect) -/

/-- Model of the WHATWG `new URL(s)` / `url.origin` pair used by
`validateRedirect`.  A string parses as an absolute URL only when it has
a scheme (letters/digits/`+`/`-`/`.` starting with a letter) before a
colon; in particular a protocol-relative string beginning with `//` has
no colon-terminated scheme and fails to parse, as `new URL` does.  For
the special schemes `http` and `https` the origin is
`scheme://host`; other schemes get the opaque origin string `null`. -/
def isSchemeChar (c : Char) : Bool :=
  c.isAlphanum || c == '+' || c == '-' || c == '.'

def urlOrigin (s : String) : Option String :=
  match splitFirst ':' s.data with
  | none => none
  | some (schemeCs, rest) =>
    match schemeCs with
    | [] => none
    | c :: _ =>
      if c.isAlpha && schemeCs.all isSchemeChar then
        let scheme := String.mk (schemeCs.map Char.toLower)
        if scheme == "http" || scheme == "https" then
          let host := (rest.dropWhile (fun ch => ch == '/')).takeWhile
            (fun ch => !(ch == '/' || ch == '?' || ch == '#'))
          if host.isEmpty then none
          else some (scheme ++ "://" ++ String.mk host)
        else some "null"
      else none

/-- `validateRedirect(redirect, allowedRedirects)`: relative paths (one
leading `/`) pass; with no allow-list, absolute (`http://`, `https://`)
and protocol-relative (`//`) targets are replaced by `/`; with an
allow-list, the target is parsed as a URL and accepted on an exact
string or origin match, a parse failure returns the target unchanged
(the `catch` branch), and anything else is replaced by `/`. -/
def validateRedirect (redirect : String) (allowedRedirects : Option (List String)) : String :=
  if strStartsWith redirect "/" && !(strStartsWith redirect "//") then redirect
  else if (match allowedRedirects with | none => true | some l => l.isEmpty) then
    if strStartsWith redirect "http://" || strStartsWith redirect "https://"
        || strStartsWith redirect "//" then "/"
    else redirect
  else
    match urlOrigin redirect with
    | none => redirect
    | some origin =>
      match allowedRedirects with
      | none => "/"
      | some allowed =>
        if allowed.any (fun a => redirect == a || origin == a) then redirect else "/"

/-- C1 (code evaluated at the failing input): a protocol-relative target
is replaced by `/` when no allow-list is configured, but when a
non-empty allow-list is configured it fails URL parsing and the `catch`
branch returns it unchanged — the claim's requirement that it be
rejected in both configurations fails, and an allow-listed deployment
is open to protocol-relative redirects. -/
theorem validateRedirect_protocol_relative_allowlist_bug :
    validateRedirect "//evil.com/x" none = "/"
    ∧ validateRedirect "//evil.com/x" (some []) = "/"
    ∧ validateRedirect "//evil.com/x" (some ["https://good.com"]) = "//evil.com/x"
    ∧ validateRedirect "//evil.com/x" (some ["https://good.com"]) ≠ "/"
    ∧ validateRedirect "/dashboard" (some ["https://good.com"]) = "/dashboard"
    ∧ validateRedirect "https://good.com/x" (some ["https://good.com"]) = "https://good.com/x"
    ∧ validateRedirect "https://evil.com" (some ["https://good.com"]) = "/" := by
  refine ⟨rfl, rfl, rfl, by decide, rfl, by decide, by decide⟩

/-! ### Account Linker (src/src/session/session-manager.js, InMemoryLinkStore) -/

namespace InMemoryLinkStore

/-- The two maps of `InMemoryLinkStore`: forward
`userId → (provider → providerId)` and reverse
`"provider:providerId" → userId`. -/
structure State where
  forward : List (String × List (String × String))
  reverse : List (String × String)
deriving DecidableEq, Repr

def empty : State := ⟨[], []⟩

/-- `_reverseKey(provider, providerId)`. -/
def reverseKey (provider providerId : String) : String :=
  provider ++ ":" ++ providerId

/-- `link(userId, provider, providerId)`: set the forward entry and the
reverse entry. -/
def link (st : State) (userId provider providerId : String) : State :=
  let links := (alLookup st.forward userId).getD []
  let links2 := alSet links provider providerId
  { forward := alSet st.forward userId links2,
    reverse := alSet st.reverse (reverseKey provider providerId) userId }

/-- `unlink(userId, provider)`: remove the forward and reverse entries
when present (a falsy stored `providerId` also returns `false`), and
drop the user's forward entry entirely when it becomes empty. -/
def unlink (st : State) (userId provider : String) : State × Bool :=
  match alLookup st.forward userId with
  | none => (st, false)
  | some links =>
    match alLookup links provider with
    | none => (st, false)
    | some providerId =>
      if providerId.isEmpty then (st, false)
      else
        let links2 := alErase links provider
        let rev := alErase st.reverse (reverseKey provider providerId)
        let fwd := if links2.isEmpty then alErase st.forward userId
                   else alSet st.forward userId links2
        (⟨fwd, rev⟩, true)

/-- The forward map's entry for `(userId, provider)`. -/
def fwdLookup (st : State) (userId provider : String) : Option String :=
  (alLookup st.forward userId).bind (fun links => alLookup links provider)

/-- `findByProvider(provider, providerId)`. -/
def findByProvider (st : State) (provider providerId : String) : Option String :=
  alLookup st.reverse (reverseKey provider providerId)

/-- The claim's invariant: the forward map and reverse index are
mutually consistent. -/
def Consistent (st : State) : Prop :=
  (∀ u p id, fwdLookup st u p = some id → findByProvider st p id = some u)
  ∧ (∀ p id u, findByProvider st p id = some u → fwdLookup st u p = some id)

end InMemoryLinkStore

/-- C6 (code evaluated at the failing input): re-linking the same
`(user, provider)` pair to a new provider id overwrites the forward
entry but leaves the old reverse entry `google:g1 → user-1` in place, so
the store reaches a state where a reverse entry has no matching forward
entry (`findByProvider` still reports the unlinked account) and the
claimed invariant is violated. -/
theorem linkStore_relink_breaks_reverse_consistency :
    InMemoryLinkStore.findByProvider
        (InMemoryLinkStore.link
          (InMemoryLinkStore.link InMemoryLinkStore.empty "user-1" "google" "g1")
          "user-1" "google" "g2") "google" "g1" = some "user-1"
    ∧ InMemoryLinkStore.fwdLookup
        (InMemoryLinkStore.link
          (InMemoryLinkStore.link InMemoryLinkStore.empty "user-1" "google" "g1")
          "user-1" "google" "g2") "user-1" "google" = some "g2"
    ∧ ¬ InMemoryLinkStore.Consistent
        (InMemoryLinkStore.link
          (InMemoryLinkStore.link InMemoryLinkStore.empty "user-1" "google" "g1")
          "user-1" "google" "g2") := by
  refine ⟨by decide, by decide, ?_⟩
  intro ⟨_, h2⟩
  have hrev := h2 "google" "g1" "user-1" (by decide)
  have : some "g2" = some "g1" := by
    calc some "g2"
        = InMemoryLinkStore.fwdLookup
            (InMemoryLinkStore.link
              (InMemoryLinkStore.link InMemoryLinkStore.empty "user-1" "google" "g1")
              "user-1" "google" "g2") "user-1" "google" := by decide
      _ = some "g1" := hrev
  simp at this

/-! ### Session Manager (src/src/session/session-manager.js) -/

/-- Normalized identity record (`AuthUser`). -/
structure AuthUser where
  id : String
  email : String
  name : String
  provider : String
  roles : Option (List String) := none
  permissions : Option (List String) := none
deriving DecidableEq, Repr

/-- The claim set of a session JWT: the `user` claim plus the optional
`roles` and `permissions` claims. -/
structure JwtPayload where
  user : AuthUser
  roles : Option (List String) := none
  permissions : Option (List String) := none
deriving DecidableEq, Repr

/-- The error thrown by `verifyToken` (`SessionError`). -/
structure SessionError where
  message : String
deriving DecidableEq, Repr

/-- `verifyToken(token)`: the jose verification (signature, expiry,
issuer — an external library) is an explicit parameter returning either
the payload or the underlying error message; on failure the code throws
a `SessionError` whose message embeds that underlying message, on
success it reattaches truthy `roles`/`permissions` claims onto the
returned user. -/
def verifyToken (joseVerify : String → Except String JwtPayload) (token : String) :
    Except SessionError AuthUser :=
  match joseVerify token with
  | .ok payload =>
    let user := payload.user
    let user := match payload.roles with
      | some r => { user with roles := some r }
      | none => user
    let user := match payload.permissions with
      | some p => { user with permissions := some p }
      | none => user
    .ok user
  | .error msg => .error ⟨"Invalid or expired session: " ++ msg⟩

/-- A concrete jose behavior used for counterexamples and witnesses:
one accepted token, and the distinct error messages jose produces for a
malformed input and for a tampered signature. -/
def joseDemo (token : String) : Except String JwtPayload :=
  if token == "valid.editor.token" then
    .ok { user := { id := "123", email := "t@example.com", name := "T", provider := "google" },
          roles := some ["editor"] }
  else if token == "not-a-jwt" then .error "Invalid Compact JWS"
  else .error "signature verification failed"

/-- C3 (counterexample): a malformed non-token string and a tampered
token both fail, but the two observable `SessionError` values differ —
the message embeds the underlying jose message, so the caller can tell
which check failed, contrary to the claim that no distinguishing detail
is carried. -/
theorem verifyToken_error_messages_differ :
    verifyToken joseDemo "not-a-jwt"
        = .error ⟨"Invalid or expired session: Invalid Compact JWS"⟩
    ∧ verifyToken joseDemo "tampered.token.x"
        = .error ⟨"Invalid or expired session: signature verification failed"⟩
    ∧ verifyToken joseDemo "not-a-jwt" ≠ verifyToken joseDemo "tampered.token.x" := by
  refine ⟨by decide, by decide, by decide⟩

/-- C3 (amended): `verifyToken` is total (never crashes) and maps every
verification failure to the single `SessionError` shape, but the error
message is `Invalid or expired session: ` followed by the underlying
error's message, so distinct underlying failure reasons remain
distinguishable to the caller by message content. -/
theorem verifyToken_uniform_error_type
    (joseVerify : String → Except String JwtPayload) (token : String) (msg : String)
    (h : joseVerify token = .error msg) :
    verifyToken joseVerify token = .error ⟨"Invalid or expired session: " ++ msg⟩ := by
  unfold verifyToken
  rw [h]

theorem verifyToken_uniform_error_type_witness :
    joseDemo "not-a-jwt" = .error "Invalid Compact JWS"
    ∧ verifyToken joseDemo "not-a-jwt"
        = .error ⟨"Invalid or expired session: Invalid Compact JWS"⟩ :=
  ⟨by decide, verifyToken_uniform_error_type joseDemo "not-a-jwt" "Invalid Compact JWS" (by decide)⟩

/-! ### Protect middleware (src/src/middleware/protect.js) -/

/-- The options object of `createProtectMiddleware`. -/
structure ProtectOptions where
  redirect : Option String := none
  roles : Option (List String) := none
  permissions : Option (List String) := none
  forbiddenRedirect : Option String := none
deriving DecidableEq, Repr

/-- The response actions the middleware can take on `res`. -/
inductive Response where
  | redirect (url : String)
  | statusJson (status : Nat) (error : String)
deriving DecidableEq, Repr

/-- The middleware's observable outcome: a response, or `next()` with
`req.user` set to the verified user. -/
inductive MWResult where
  | respond (r : Response)
  | next (user : AuthUser)
deriving DecidableEq, Repr

/-- `handleUnauthorized(res, options)`: redirect when `options.redirect`
is truthy, else a 401 JSON body. -/
def handleUnauthorized (options : ProtectOptions) : Response :=
  if jsTruthy options.redirect then .redirect (options.redirect.getD "")
  else .statusJson 401 "Unauthorized"

/-- `handleForbidden(res, options)`: redirect when
`options.forbiddenRedirect` is truthy, else a 403 JSON body. -/
def handleForbidden (options : ProtectOptions) : Response :=
  if jsTruthy options.forbiddenRedirect then .redirect (options.forbiddenRedirect.getD "")
  else .statusJson 403 "Forbidden"

/-- A request as `getTokenFromRequest` sees it: the pre-parsed cookie
map when a cookie parser ran, and the raw `Cookie` header. -/
structure Request where
  cookies : Option (List (String × String)) := none
  cookieHeader : Option String := none
deriving DecidableEq, Repr

/-- `SessionManager.getTokenFromRequest(req)`: a truthy pre-parsed
cookie wins; otherwise the raw header is split on `;`, trimmed, and the
first `name=` entry's value (the piece after the first `=`) is
returned. -/
def getTokenFromRequest (cookieName : String) (req : Request) : Option String :=
  let fromParsed : Option String :=
    match req.cookies with
    | some cs =>
      match alLookup cs cookieName with
      | some v => if v.isEmpty then none else some v
      | none => none
    | none => none
  match fromParsed with
  | some v => some v
  | none =>
    match req.cookieHeader with
    | none => none
    | some header =>
      if header.isEmpty then none
      else
        match ((jsSplit header ';').map jsTrim).find?
            (fun c => strStartsWith c (cookieName ++ "=")) with
        | none => none
        | some c => (jsSplit c '=').get? 1

/-- `createProtectMiddleware(sessionManager, options)` applied to one
request: extract the token (falsy → unauthorized), verify it (failure
→ unauthorized), then the role check and the permission check (each
applied only when the option is a non-empty list, failure → forbidden),
and finally `next()` with the verified user. -/
def createProtectMiddleware (cookieName : String)
    (joseVerify : String → Except String JwtPayload)
    (options : ProtectOptions) (req : Request) : MWResult :=
  let token := getTokenFromRequest cookieName req
  if !(jsTruthy token) then .respond (handleUnauthorized options)
  else
    match verifyToken joseVerify (token.getD "") with
    | .error _ => .respond (handleUnauthorized options)
    | .ok user =>
      let rolesOk :=
        match options.roles with
        | some rs => if rs.isEmpty then true
                     else rs.any (fun r => (user.roles.getD []).contains r)
        | none => true
      if !rolesOk then .respond (handleForbidden options)
      else
        let permsOk :=
          match options.permissions with
          | some ps => if ps.isEmpty then true
                       else ps.any (fun p => (user.permissions.getD []).contains p)
          | none => true
        if !permsOk then .respond (handleForbidden options)
        else .next user

/-- C4: when no token can be extracted from the request the middleware
answers with the unauthenticated outcome — a redirect when configured,
else 401 with body error `Unauthorized` — for every configuration of
roles and permissions, and that outcome is never a 403 response; the
role and permission checks are unreachable without a verified token. -/
theorem protect_missing_token_unauthenticated
    (cookieName : String) (joseVerify : String → Except String JwtPayload)
    (options : ProtectOptions) (req : Request)
    (h : jsTruthy (getTokenFromRequest cookieName req) = false) :
    createProtectMiddleware cookieName joseVerify options req
        = .respond (handleUnauthorized options)
    ∧ (∀ s, handleUnauthorized options ≠ Response.statusJson 403 s)
    ∧ (jsTruthy options.redirect = false →
        handleUnauthorized options = Response.statusJson 401 "Unauthorized")
    ∧ (∀ url, options.redirect = some url → url.isEmpty = false →
        handleUnauthorized options = Response.redirect url) := by
  refine ⟨?_, ?_, ?_, ?_⟩
  · simp only [createProtectMiddleware, h, Bool.not_false, if_pos]
  · intro s
    unfold handleUnauthorized
    split
    · intro hc
      exact Response.noConfusion hc
    · intro hc
      injection hc with h1 h2
      omega
  · intro hr
    simp [handleUnauthorized, hr]
  · intro url hu hne
    simp [handleUnauthorized, jsTruthy, hu, hne]

theorem protect_missing_token_unauthenticated_witness :
    jsTruthy (getTokenFromRequest "authsnap_session" ⟨none, none⟩) = false
    ∧ createProtectMiddleware "authsnap_session" joseDemo
        ⟨none, some ["admin"], some ["read:users"], none⟩ ⟨none, none⟩
        = .respond (.statusJson 401 "Unauthorized") := by
  have h : jsTruthy (getTokenFromRequest "authsnap_session" ⟨none, none⟩) = false := by decide
  refine ⟨h, ?_⟩
  have hmain := protect_missing_token_unauthenticated "authsnap_session" joseDemo
    ⟨none, some ["admin"], some ["read:users"], none⟩ ⟨none, none⟩ h
  rw [hmain.1]
  rfl

/-- C5: for an authenticated request and a configured non-empty
required-roles list the middleware authorizes exactly when the user's
roles (empty when absent) intersect the required list, with the same
one-match-suffices check applied to a configured non-empty
required-permissions list, and answers with the forbidden outcome
otherwise. -/
theorem protect_rbac_or_semantics
    (cookieName : String) (joseVerify : String → Except String JwtPayload)
    (options : ProtectOptions) (req : Request) (token : String) (user : AuthUser)
    (rs : List String)
    (htok : getTokenFromRequest cookieName req = some token)
    (hne : token.isEmpty = false)
    (hver : verifyToken joseVerify token = .ok user)
    (hroles : options.roles = some rs)
    (hrs : rs ≠ []) :
    createProtectMiddleware cookieName joseVerify options req
      = (if (rs.any fun r => (user.roles.getD []).contains r) &&
            (match options.permissions with
             | some ps => ps.isEmpty || ps.any (fun p => (user.permissions.getD []).contains p)
             | none => true)
         then MWResult.next user
         else .respond (handleForbidden options))
    ∧ (createProtectMiddleware cookieName joseVerify options req = MWResult.next user ↔
        (∃ r ∈ rs, r ∈ user.roles.getD [])
        ∧ (∀ ps, options.permissions = some ps → ps ≠ [] →
            ∃ p ∈ ps, p ∈ user.permissions.getD [])) := by
  have hrsE : rs.isEmpty = false := by
    cases rs with
    | nil => exact absurd rfl hrs
    | cons a l => rfl
  have hstep : createProtectMiddleware cookieName joseVerify options req
      = (if (rs.any fun r => (user.roles.getD []).contains r) &&
            (match options.permissions with
             | some ps => ps.isEmpty || ps.any (fun p => (user.permissions.getD []).contains p)
             | none => true)
         then MWResult.next user
         else .respond (handleForbidden options)) := by
    unfold createProtectMiddleware
    rw [htok]
    simp only [Option.getD_some, jsTruthy, hne, Bool.not_false]
    rw [hver]
    simp only [hroles, hrsE]
    cases hA : rs.any fun r => (user.roles.getD []).contains r with
    | false =>
      simp only [eq_self_iff_true, if_true, if_false, Bool.not_true, Bool.not_false,
        Bool.false_eq_true, Bool.true_eq_false, Bool.true_and, Bool.false_and,
        Bool.and_true, Bool.and_false, Bool.true_or, Bool.false_or]
    | true =>
      cases hP : options.permissions with
      | none =>
        simp only [eq_self_iff_true, if_true, if_false, Bool.not_true, Bool.not_false,
          Bool.false_eq_true, Bool.true_eq_false, Bool.true_and, Bool.false_and,
          Bool.and_true, Bool.and_false, Bool.true_or, Bool.false_or]
      | some ps =>
        cases hPe : ps.isEmpty with
        | true =>
          simp only [hPe, eq_self_iff_true, if_true, if_false, Bool.not_true, Bool.not_false,
            Bool.false_eq_true, Bool.true_eq_false, Bool.true_and, Bool.false_and,
            Bool.and_true, Bool.and_false, Bool.true_or, Bool.false_or]
        | false =>
          cases hB : ps.any fun p => (user.permissions.getD []).contains p with
          | false =>
            simp only [hPe, hB, eq_self_iff_true, if_true, if_false, Bool.not_true,
              Bool.not_false, Bool.false_eq_true, Bool.true_eq_false, Bool.true_and,
              Bool.false_and, Bool.and_true, Bool.and_false, Bool.true_or, Bool.false_or]
          | true =>
            simp only [hPe, hB, eq_self_iff_true, if_true, if_false, Bool.not_true,
              Bool.not_false, Bool.false_eq_true, Bool.true_eq_false, Bool.true_and,
              Bool.false_and, Bool.and_true, Bool.and_false, Bool.true_or, Bool.false_or]
  refine ⟨hstep, ?_⟩
  rw [hstep]
  cases hA : rs.any fun r => (user.roles.getD []).contains r with
  | false =>
    simp only [Bool.false_and, Bool.false_eq_true, if_false]
    constructor
    · intro hc
      exact absurd hc (by simp)
    · rintro ⟨⟨r, hrmem, hruser⟩, _⟩
      have hA2 : rs.any (fun r => (user.roles.getD []).contains r) = true := by
        simp only [List.any_eq_true]
        exact ⟨r, hrmem, by simpa using hruser⟩
      rw [hA] at hA2
      exact absurd hA2 (by simp)
  | true =>
    have hAex : ∃ r ∈ rs, r ∈ user.roles.getD [] := by
      simpa using hA
    cases hP : options.permissions with
    | none =>
      simp only [Bool.true_and, if_true]
      constructor
      · intro _
        refine ⟨hAex, ?_⟩
        intro ps hps
        exact absurd hps (by simp)
      · intro _
        simp
    | some ps =>
      cases hPe : ps.isEmpty with
      | true =>
        have hpsnil : ps = [] := by simpa using hPe
        simp only [hPe, Bool.true_or, Bool.and_true, if_true]
        constructor
        · intro _
          refine ⟨hAex, ?_⟩
          intro ps' hps' hne'
          injection hps' with hps'
          rw [← hps'] at hne'
          exact absurd hpsnil hne'
        · intro _
          simp
      | false =>
        have hpsne : ps ≠ [] := by
          intro hc
          rw [hc] at hPe
          exact absurd hPe (by simp)
        simp only [hPe, Bool.false_or]
        cases hB : ps.any fun p => (user.permissions.getD []).contains p with
        | false =>
          simp only [Bool.and_false, Bool.false_eq_true, if_false]
          constructor
          · intro hc
            exact absurd hc (by simp)
          · rintro ⟨_, hperm⟩
            obtain ⟨p, hpmem, hpuser⟩ := hperm ps rfl hpsne
            have hB2 : ps.any (fun p => (user.permissions.getD []).contains p) = true := by
              simp only [List.any_eq_true]
              exact ⟨p, hpmem, by simpa using hpuser⟩
            rw [hB] at hB2
            exact absurd hB2 (by simp)
        | true =>
          have hBex : ∃ p ∈ ps, p ∈ user.permissions.getD [] := by
            simpa using hB
          simp only [Bool.and_true, if_true]
          constructor
          · intro _
            refine ⟨hAex, ?_⟩
            intro ps' hps' _
            injection hps' with hps'
            rw [← hps']
            exact hBex
          · intro _
            simp

/-- `req.user` produced by verifying the demo token: the jose payload's
`roles` claim is reattached onto the user. -/
def demoEditor : AuthUser :=
  { id := "123", email := "t@example.com", name := "T", provider := "google",
    roles := some ["editor"] }

theorem protect_rbac_or_semantics_witness :
    getTokenFromRequest "authsnap_session"
        ⟨some [("authsnap_session", "valid.editor.token")], none⟩
        = some "valid.editor.token"
    ∧ createProtectMiddleware "authsnap_session" joseDemo
        ⟨none, some ["admin", "editor"], none, none⟩
        ⟨some [("authsnap_session", "valid.editor.token")], none⟩
        = MWResult.next demoEditor := by
  have htok : getTokenFromRequest "authsnap_session"
      ⟨some [("authsnap_session", "valid.editor.token")], none⟩
      = some "valid.editor.token" := by decide
  have hmain := protect_rbac_or_semantics "authsnap_session" joseDemo
    ⟨none, some ["admin", "editor"], none, none⟩
    ⟨some [("authsnap_session", "valid.editor.token")], none⟩
    "valid.editor.token" demoEditor ["admin", "editor"]
    htok (by decide) (by decide) rfl (by decide)
  refine ⟨htok, ?_⟩
  rw [hmain.1]
  decide

/-! ### Token Refresher (src/src/session/token-refresh.js) -/

/-- Behavior of the configured `onTokenRefresh` callback at one
invocation: not configured, returning normally, or throwing. -/
inductive HookBehavior where
  | absent
  | returns
  | throws
deriving DecidableEq, Repr

/-- Outcome of `_exchangeRefreshToken` (the `fetch` of the provider's
token endpoint, an external call): a parsed new token set on a success
response, or a failure (non-success HTTP status — which the code turns
into a thrown `ProviderError` — or any error thrown by the HTTP
layer). -/
inductive ExchangeOutcome where
  | ok (tokens : TokenSet)
  | fail
deriving DecidableEq, Repr

namespace TokenRefresher

/-- `TokenRefresher._refresh(providerName, userId, currentTokens)`:
on a successful exchange, keep the previous refresh token when the
provider omitted one, store the new set, fire the hook (inside the same
`try`, so a throwing hook falls into the `catch`), and return the new
set; on any thrown error the `catch` deletes the stored entry and
returns `null`.  Returns the result and the resulting store. -/
def refresh (store : List (String × TokenSet)) (now : Int)
    (providerName userId : String) (currentTokens : TokenSet)
    (exchange : ExchangeOutcome) (hook : HookBehavior) :
    Option TokenSet × List (String × TokenSet) :=
  match exchange with
  | .fail => (none, TokenStore.del store (TokenStore.key providerName userId))
  | .ok newTokens0 =>
    let newTokens :=
      if jsFalsyRefreshToken newTokens0.refreshToken
          && !(jsFalsyRefreshToken currentTokens.refreshToken) then
        { newTokens0 with refreshToken := currentTokens.refreshToken }
      else newTokens0
    match hook with
    | .throws =>
      (none, TokenStore.del
        (TokenStore.set store now (TokenStore.key providerName userId) newTokens)
        (TokenStore.key providerName userId))
    | _ => (some newTokens, TokenStore.set store now (TokenStore.key providerName userId) newTokens)

/-- `TokenRefresher.getValidTokens(providerName, userId)`: absent tokens
→ `null`; present and not expired → returned as stored with no exchange;
expired with a falsy refresh token → `null` with no exchange; otherwise
delegate to `_refresh`.  The boolean records whether a refresh exchange
(the only network call) was performed. -/
def getValidTokens (store : List (String × TokenSet)) (now : Int)
    (providerName userId : String)
    (exchange : ExchangeOutcome) (hook : HookBehavior) :
    Option TokenSet × List (String × TokenSet) × Bool :=
  match TokenStore.get store (TokenStore.key providerName userId) with
  | none => (none, store, false)
  | some tokens =>
    if !(TokenStore.isExpired store now (TokenStore.key providerName userId)) then
      (some tokens, store, false)
    else if jsFalsyRefreshToken tokens.refreshToken then (none, store, false)
    else
      ((refresh store now providerName userId tokens exchange hook).1,
       (refresh store now providerName userId tokens exchange hook).2, true)

end TokenRefresher

/-- C7: `getValidTokens` returns `null` when nothing is stored under
`provider:userId`; returns the stored set unchanged with no refresh
exchange when the stored set is not expired per `isExpired`; and returns
`null` without attempting an exchange when the stored set is expired and
its refresh token is `null`. -/
theorem getValidTokens_no_refresh_cases
    (store : List (String × TokenSet)) (now : Int) (providerName userId : String)
    (exchange : ExchangeOutcome) (hook : HookBehavior) :
    (TokenStore.get store (TokenStore.key providerName userId) = none →
      TokenRefresher.getValidTokens store now providerName userId exchange hook
        = (none, store, false))
    ∧ (∀ t, TokenStore.get store (TokenStore.key providerName userId) = some t →
        TokenStore.isExpired store now (TokenStore.key providerName userId) = false →
        TokenRefresher.getValidTokens store now providerName userId exchange hook
          = (some t, store, false))
    ∧ (∀ t, TokenStore.get store (TokenStore.key providerName userId) = some t →
        TokenStore.isExpired store now (TokenStore.key providerName userId) = true →
        t.refreshToken = none →
        TokenRefresher.getValidTokens store now providerName userId exchange hook
          = (none, store, false)) := by
  refine ⟨?_, ?_, ?_⟩
  · intro h
    unfold TokenRefresher.getValidTokens
    rw [h]
  · intro t ht hexp
    unfold TokenRefresher.getValidTokens
    rw [ht, hexp]
    rfl
  · intro t ht hexp hrt
    unfold TokenRefresher.getValidTokens
    rw [ht, hexp]
    simp only [hrt]
    rfl

/-- A token set that expired at time 10 and has no refresh token. -/
def demoExpiredNoRefresh : TokenSet :=
  { accessToken := "at", refreshToken := none, expiresAt := some 10,
    tokenType := "Bearer", scope := none }

theorem getValidTokens_no_refresh_cases_witness :
    TokenRefresher.getValidTokens [] 5 "google" "123" .fail .absent = (none, [], false)
    ∧ TokenRefresher.getValidTokens (TokenStore.set [] 1 "google:123" demoExpiredNoRefresh)
        5 "google" "123" .fail .absent
        = (some { demoExpiredNoRefresh with storedAt := some 1 },
           TokenStore.set [] 1 "google:123" demoExpiredNoRefresh, false)
    ∧ TokenRefresher.getValidTokens (TokenStore.set [] 1 "google:123" demoExpiredNoRefresh)
        20 "google" "123" .fail .absent
        = (none, TokenStore.set [] 1 "google:123" demoExpiredNoRefresh, false) := by
  refine ⟨?_, ?_, ?_⟩
  · exact (getValidTokens_no_refresh_cases [] 5 "google" "123" .fail .absent).1 rfl
  · exact (getValidTokens_no_refresh_cases (TokenStore.set [] 1 "google:123" demoExpiredNoRefresh)
      5 "google" "123" .fail .absent).2.1
      { demoExpiredNoRefresh with storedAt := some 1 } (by decide) (by decide)
  · exact (getValidTokens_no_refresh_cases (TokenStore.set [] 1 "google:123" demoExpiredNoRefresh)
      20 "google" "123" .fail .absent).2.2
      { demoExpiredNoRefresh with storedAt := some 1 } (by decide) (by decide) rfl

/-- C8: when the stored set is expired and carries a refresh token but
the refresh exchange fails, `getValidTokens` deletes the stored entry
and returns `null` (having attempted exactly that one exchange), and a
subsequent `getValidTokens` on the resulting store finds no entry and
returns `null` without attempting another exchange. -/
theorem refresh_failure_deletes_entry
    (store : List (String × TokenSet)) (now now2 : Int) (providerName userId : String)
    (t : TokenSet) (hook hook2 : HookBehavior) (exchange2 : ExchangeOutcome)
    (ht : TokenStore.get store (TokenStore.key providerName userId) = some t)
    (hexp : TokenStore.isExpired store now (TokenStore.key providerName userId) = true)
    (hrt : jsFalsyRefreshToken t.refreshToken = false) :
    TokenRefresher.getValidTokens store now providerName userId .fail hook
      = (none, TokenStore.del store (TokenStore.key providerName userId), true)
    ∧ TokenStore.get (TokenStore.del store (TokenStore.key providerName userId))
        (TokenStore.key providerName userId) = none
    ∧ TokenRefresher.getValidTokens
        (TokenStore.del store (TokenStore.key providerName userId))
        now2 providerName userId exchange2 hook2
      = (none, TokenStore.del store (TokenStore.key providerName userId), false) := by
  have hgone : TokenStore.get (TokenStore.del store (TokenStore.key providerName userId))
      (TokenStore.key providerName userId) = none :=
    alLookup_alErase_self store (TokenStore.key providerName userId)
  refine ⟨?_, hgone, ?_⟩
  · unfold TokenRefresher.getValidTokens
    rw [ht, hexp]
    simp only [hrt]
    rfl
  · unfold TokenRefresher.getValidTokens
    rw [hgone]

/-- A token set that expired at time 10 and still has a refresh token. -/
def demoExpiredWithRefresh : TokenSet :=
  { accessToken := "at", refreshToken := some "rt", expiresAt := some 10,
    tokenType := "Bearer", scope := none }

theorem refresh_failure_deletes_entry_witness :
    TokenRefresher.getValidTokens (TokenStore.set [] 1 "google:123" demoExpiredWithRefresh)
        20 "google" "123" .fail .absent
      = (none, [], true)
    ∧ TokenRefresher.getValidTokens [] 30 "google" "123" .fail .absent
      = (none, [], false) := by
  have hmain := refresh_failure_deletes_entry
    (TokenStore.set [] 1 "google:123" demoExpiredWithRefresh) 20 30 "google" "123"
    { demoExpiredWithRefresh with storedAt := some 1 } .absent .absent .fail
    (by decide) (by decide) (by decide)
  have hdel : TokenStore.del (TokenStore.set [] 1 "google:123" demoExpiredWithRefresh)
      (TokenStore.key "google" "123") = [] := by decide
  refine ⟨?_, ?_⟩
  · rw [hmain.1, hdel]
  · have h2 := hmain.2.2
    rw [hdel] at h2
    exact h2

/-! ### Route handlers and lifecycle hooks
(src/src/core/route-handler.js, src/src/core/authsnap.js) -/

/-- Behavior of one configured hook invocation: the hook is not
configured, returns a value, or throws. -/
inductive HookOutcome (α : Type) where
  | absent
  | ok (value : α)
  | throws (msg : String)
deriving DecidableEq, Repr

/-- What `EventEmitter.emit` would do: run the listeners in order and
propagate the first thrown error. -/
def rawEmit : List (HookOutcome Unit) → Except String Unit
  | [] => .ok ()
  | .throws m :: _ => .error m
  | _ :: rest => rawEmit rest

/-- `AuthSnap.emit(event, data)`: the emitter call is wrapped in
`try/catch`, so listener errors never reach the auth flow. -/
def emit (listeners : List (HookOutcome Unit)) : Unit :=
  match rawEmit listeners with
  | .ok _ => ()
  | .error _ => ()

/-- The result record of `handleLogin`. -/
structure LoginResult where
  redirectURL : String
  state : String
  secure : Bool
deriving DecidableEq, Repr

/-- `handleLogin(authSnap, providerName, callbackURL, req)`: generate
the state (a parameter here, as it is random), invoke `onBeforeAuth`
when configured (uncaught — a throw propagates), emit the `login` event
(listener errors swallowed by `emit`), and return the authorization URL
(provider URL building is a parameter), state, and secure flag. -/
def handleLogin (onBeforeAuth : HookOutcome Unit) (loginListeners : List (HookOutcome Unit))
    (authorizationURL stateToken : String) (secure : Bool) : Except String LoginResult :=
  match onBeforeAuth with
  | .throws msg => .error msg
  | _ =>
    let _ := emit loginListeners
    .ok { redirectURL := authorizationURL, state := stateToken, secure := secure }

/-- `handleCallbackError(authSnap, providerName, error)`: invoke
`onError` when configured (uncaught — a throw propagates), emit the
`error` event, take the hook-supplied redirect (or the base-path error
page), and pass it through `validateRedirect`. -/
def handleCallbackError (onError : HookOutcome (Option String))
    (errorListeners : List (HookOutcome Unit)) (basePath : String)
    (allowedRedirects : Option (List String)) : Except String String :=
  match onError with
  | .throws msg => .error msg
  | .ok r =>
    let _ := emit errorListeners
    let redirect := match r with
      | some s => if s.isEmpty then basePath ++ "/error" else s
      | none => basePath ++ "/error"
    .ok (validateRedirect redirect allowedRedirects)
  | .absent =>
    let _ := emit errorListeners
    .ok (validateRedirect (basePath ++ "/error") allowedRedirects)

/-- The record an `onSuccess` hook may return. -/
structure SuccessResult where
  redirect : Option String := none
  roles : Option (List String) := none
  permissions : Option (List String) := none
deriving DecidableEq, Repr

/-- `SessionManager.buildCookieHeader(token)`. -/
def buildCookieHeader (cookieName : String) (maxAge : Int) (secure : Bool)
    (token : String) : String :=
  let parts := [cookieName ++ "=" ++ token, "Max-Age=" ++ toString maxAge,
    "Path=/", "HttpOnly", "SameSite=Lax"]
  String.intercalate "; " (if secure then parts ++ ["Secure"] else parts)

/-- The result record of `handleCallback`. -/
structure CallbackResult where
  redirectURL : String
  sessionCookie : String
deriving DecidableEq, Repr

/-- `handleCallback(authSnap, providerName, code, state, storedState,
callbackURL)`: CSRF state validation, code presence, code exchange and
profile fetch (external calls, passed as their outcomes), token
persistence when a token store is configured, the `onSuccess` hook
(uncaught — a throw propagates), the `success` event, redirect
validation, and session cookie construction (JWT signing is a
parameter).  Returns the result together with the resulting token
store. -/
def handleCallback (providerName : String) (code state storedState : Option String)
    (exchangeCode : Except String TokenSet) (getProfile : Except String AuthUser)
    (tokenStoreConfigured : Bool) (store : List (String × TokenSet)) (now : Int)
    (onSuccess : HookOutcome SuccessResult) (successListeners : List (HookOutcome Unit))
    (allowedRedirects : Option (List String))
    (signJwt : AuthUser → Option (List String) → Option (List String) → String)
    (cookieName : String) (maxAge : Int) (secure : Bool) :
    Except String (CallbackResult × List (String × TokenSet)) :=
  if !(jsTruthy state) || !(state == storedState) then
    .error "Invalid state parameter — possible CSRF attack"
  else if !(jsTruthy code) then
    .error "No authorization code received from provider"
  else
    match exchangeCode with
    | .error msg => .error msg
    | .ok tokens =>
      match getProfile with
      | .error msg => .error msg
      | .ok user =>
        let store1 := if tokenStoreConfigured then
            TokenStore.set store now (TokenStore.key providerName user.id) tokens
          else store
        match onSuccess with
        | .throws msg => .error msg
        | hr =>
          let result : SuccessResult := match hr with
            | .ok r => r
            | _ => {}
          let _ := emit successListeners
          let redirect := match result.redirect with
            | some s => if s.isEmpty then "/" else s
            | none => "/"
          .ok ({ redirectURL := validateRedirect redirect allowedRedirects,
                 sessionCookie := buildCookieHeader cookieName maxAge secure
                   (signJwt user result.roles result.permissions) }, store1)

/-- C2 (counterexample): with a throwing `onBeforeAuth` hook,
`handleLogin` does not complete with the result it produces when the
hook returns normally — the exception propagates to the caller. -/
theorem hook_exception_alters_result :
    handleLogin (.throws "boom") [] "https://provider/auth" "state1" true = .error "boom"
    ∧ handleLogin (.ok ()) [] "https://provider/auth" "state1" true
        = .ok { redirectURL := "https://provider/auth", state := "state1", secure := true }
    ∧ handleLogin (.throws "boom") [] "https://provider/auth" "state1" true
        ≠ handleLogin (.ok ()) [] "https://provider/auth" "state1" true := by
  refine ⟨rfl, rfl, by decide⟩

/-- C2 (amended): event-listener errors are caught and discarded inside
`emit` and never change any result, but the four lifecycle hooks are
invoked without a catch at the invocation site: a throwing
`onBeforeAuth`, `onSuccess`, or `onError` propagates out of
`handleLogin`, `handleCallback`, or `handleCallbackError` respectively,
and a throwing `onTokenRefresh` lands in the refresh flow's own `catch`,
which deletes the freshly stored tokens and returns `null` instead of
the new token set. -/
theorem hook_and_listener_error_semantics :
    (∀ listeners, emit listeners = ())
    ∧ (∀ listeners url st sec,
        handleLogin .absent listeners url st sec
          = .ok { redirectURL := url, state := st, secure := sec }
        ∧ handleLogin (.ok ()) listeners url st sec
          = .ok { redirectURL := url, state := st, secure := sec })
    ∧ (∀ msg listeners url st sec,
        handleLogin (.throws msg) listeners url st sec = .error msg)
    ∧ (∀ msg listeners basePath ar,
        handleCallbackError (.throws msg) listeners basePath ar = .error msg)
    ∧ (∀ msg (t : TokenSet) (u : AuthUser) tsc store now listeners ar signJwt cn ma sec,
        handleCallback "google" (some "c") (some "s") (some "s") (.ok t) (.ok u)
          tsc store now (.throws msg) listeners ar signJwt cn ma sec = .error msg)
    ∧ (∀ store now p uid cur newT,
        (TokenRefresher.refresh store now p uid cur (.ok newT) .throws).1 = none
        ∧ TokenStore.get (TokenRefresher.refresh store now p uid cur (.ok newT) .throws).2
            (TokenStore.key p uid) = none
        ∧ ((TokenRefresher.refresh store now p uid cur (.ok newT) .returns).1).isSome
            = true) := by
  refine ⟨?_, ?_, ?_, ?_, ?_, ?_⟩
  · intro listeners
    cases h : rawEmit listeners <;> simp [emit, h]
  · intro listeners url st sec
    exact ⟨rfl, rfl⟩
  · intro msg listeners url st sec
    rfl
  · intro msg listeners basePath ar
    rfl
  · intro msg t u tsc store now listeners ar signJwt cn ma sec
    rfl
  · intro store now p uid cur newT
    refine ⟨rfl, ?_, rfl⟩
    simp only [TokenRefresher.refresh, TokenStore.get, TokenStore.del]
    exact alLookup_alErase_self _ _

end AuthSnap
